import Mathlib

/-!
Verification of the brainfuck interpreter in `source/brain_fuck.cpp`.

The interpreter's run state (tape map, cursor, loop-start index vector,
statistics counters) and its instruction dispatch loop are embedded as
executable Lean definitions, faithful to the C++ source:

* the tape is `map<int, char>` — a total function `Int → Int` defaulting to 0,
  with cell values wrapped to one signed byte on every write;
* the loop-start vector is a list used as a stack (head = `back()`);
* `instructions[index]` at `index == size` yields the null character (defined
  in C++11); any access beyond that is undefined behaviour, modelled by the
  dedicated `ub` result;
* `pop_back()` on an empty vector is likewise undefined behaviour (`ub`);
* the `for` loop's `index += 1` increment is folded into each step, so a step
  result records the index of the *next* dispatched instruction.
-/

/-- Wrap an integer to one signed byte, the two's-complement arithmetic of the
`char` cells in `map<int, char> stack`. -/
def wrap8 (n : Int) : Int := (n + 128) % 256 - 128

/-- Point update of the tape function (the effect of `stack[pointer] = v`). -/
def updateTape (t : Int → Int) (a v : Int) : Int → Int :=
  fun b => if b = a then v else t b

/-- Error kinds surfaced by `throw -1` exits inside the interpretation loop. -/
inductive EngErr where
  | resourceLimitExceeded
  | unbalancedLoop
  | inputError
deriving DecidableEq, Repr

/-- The interpreter's mutable state: `pointer`, `stack` (the tape map),
`loop_start_indices`, the verbose-mode counters, the instruction `index`,
plus the modelled console (pending input characters, emitted output). -/
structure EngineState where
  pointer : Int
  tape : Int → Int
  stack : List Nat
  lowest_cell : Int
  greatest_cell : Int
  operations : Nat
  left_shifts : Nat
  right_shifts : Nat
  index : Nat
  inputs : List Int
  output : List Int

/-- Result of dispatching one instruction. -/
inductive StepResult where
  | ok (s : EngineState)
  | fail (e : EngErr)
  | ub

/-- Result of a whole run. -/
inductive RunResult where
  | completed (s : EngineState)
  | failed (e : EngErr)
  | ub
  | fuelOut

/-- The forward skip scan of `[` on a zero cell: `index += 1` then read
`instructions[index]`, adjusting the `indentation` depth on brackets, until
the depth returns to zero.  Reading position `size` yields the null character
(no bracket, scan continues); reading beyond is undefined behaviour (`none`).
Returns the index of the matching `]`. -/
def skipScan (instrs : List Char) : Nat → Nat → Int → Option Nat
  | 0, _, _ => none
  | fuel + 1, idx, ind =>
    let idx' := idx + 1
    if h : idx' < instrs.length then
      let c := instrs.get ⟨idx', h⟩
      let ind' := if c = '[' then ind + 1 else if c = ']' then ind - 1 else ind
      if ind' = 0 then some idx' else skipScan instrs fuel idx' ind'
    else if idx' = instrs.length then
      skipScan instrs fuel idx' ind
    else none

/-- One iteration of the interpretation loop: increment `operations`, check the
cell-span limit, dispatch on `instructions[index]`, and apply the loop's
`index += 1`.  The resulting `index` is the next instruction to dispatch. -/
def step (instrs : List Char) (limit : Int) (s : EngineState) : StepResult :=
  let s1 : EngineState := { s with operations := s.operations + 1 }
  if |s1.greatest_cell| + |s1.lowest_cell| > limit then
    .fail .resourceLimitExceeded
  else
    let c := instrs.getD s1.index (Char.ofNat 0)
    if c = '+' then
      .ok { s1 with
        tape := updateTape s1.tape s1.pointer (wrap8 (s1.tape s1.pointer + 1)),
        index := s1.index + 1 }
    else if c = '-' then
      .ok { s1 with
        tape := updateTape s1.tape s1.pointer (wrap8 (s1.tape s1.pointer - 1)),
        index := s1.index + 1 }
    else if c = '>' then
      .ok { s1 with
        pointer := s1.pointer + 1,
        right_shifts := s1.right_shifts + 1,
        lowest_cell := min (s1.pointer + 1) s1.lowest_cell,
        index := s1.index + 1 }
    else if c = '<' then
      .ok { s1 with
        pointer := s1.pointer - 1,
        left_shifts := s1.left_shifts + 1,
        greatest_cell := max (s1.pointer - 1) s1.greatest_cell,
        index := s1.index + 1 }
    else if c = '.' then
      let v := s1.tape s1.pointer
      let o := if v < 32 ∨ v > 126 then 63 else v
      .ok { s1 with output := s1.output ++ [o], index := s1.index + 1 }
    else if c = ',' then
      match s1.inputs with
      | [] => .fail .inputError
      | v :: rest =>
        .ok { s1 with
          tape := updateTape s1.tape s1.pointer (wrap8 v),
          inputs := rest,
          index := s1.index + 1 }
    else if c = '[' then
      if s1.tape s1.pointer = 0 then
        match skipScan instrs (instrs.length + 2) s1.index 1 with
        | some j => .ok { s1 with index := j + 1 }
        | none => .ub
      else if s1.stack = [] ∨ s1.stack.head? ≠ some s1.index then
        .ok { s1 with stack := s1.index :: s1.stack, index := s1.index + 1 }
      else
        .ok { s1 with index := s1.index + 1 }
    else if c = ']' then
      if s1.tape s1.pointer = 0 then
        match s1.stack with
        | _ :: rest => .ok { s1 with stack := rest, index := s1.index + 1 }
        | [] => .ub
      else
        match s1.stack with
        | top :: _ => .ok { s1 with index := top + 1 }
        | [] => .fail .unbalancedLoop
    else
      .ok { s1 with index := s1.index + 1 }

/-- The interpretation loop: while `index < instructions.size()`, dispatch one
instruction; completion (with whatever stack remains) once the index leaves
the sequence. -/
def run (instrs : List Char) (limit : Int) : Nat → EngineState → RunResult
  | 0, _ => .fuelOut
  | fuel + 1, s =>
    if s.index < instrs.length then
      match step instrs limit s with
      | .ok s' => run instrs limit fuel s'
      | .fail e => .failed e
      | .ub => .ub
    else .completed s

/-- Fresh engine state: cursor 0, empty (all-zero) tape, empty loop stack,
all counters zero, given pending console input. -/
def initState (inputs : List Int) : EngineState :=
  { pointer := 0, tape := fun _ => 0, stack := [], lowest_cell := 0,
    greatest_cell := 0, operations := 0, left_shifts := 0, right_shifts := 0,
    index := 0, inputs := inputs, output := [] }

/-- The character set scanned for by `count_operators` in the source:
`string operators = "+-./<>[]"`. -/
def bf_operators : List Char := ['+', '-', '.', '/', '<', '>', '[', ']']

/-- `count_operators`: count the instruction characters found in the
`operators` string. -/
def count_operators (instructions : List Char) : Nat :=
  instructions.countP (fun c => bf_operators.contains c)

/-- Net increment count of a `+`/`-` sequence. -/
def netCount (p : List Char) : Int :=
  (p.count '+' : Int) - (p.count '-' : Int)

/-- Whether a run completed. -/
def RunResult.isCompleted : RunResult → Bool
  | .completed _ => true
  | _ => false

/-- Whether a run ended in undefined behaviour. -/
def RunResult.isUB : RunResult → Bool
  | .ub => true
  | _ => false

/-- The error of a failed run. -/
def RunResult.failure : RunResult → Option EngErr
  | .failed e => some e
  | _ => none

/-- Final cell value at an address, for a completed run. -/
def RunResult.cellAt (r : RunResult) (a : Int) : Option Int :=
  match r with
  | .completed s => some (s.tape a)
  | _ => none

/-- Final cursor, for a completed run. -/
def RunResult.finalPointer : RunResult → Option Int
  | .completed s => some s.pointer
  | _ => none

/-- Final `lowest_cell` tracker, for a completed run. -/
def RunResult.finalLowest : RunResult → Option Int
  | .completed s => some s.lowest_cell
  | _ => none

/-- Final `greatest_cell` tracker, for a completed run. -/
def RunResult.finalGreatest : RunResult → Option Int
  | .completed s => some s.greatest_cell
  | _ => none

/-- Emitted output, for a completed run. -/
def RunResult.outputOf : RunResult → Option (List Int)
  | .completed s => some s.output
  | _ => none

/-- The `abs(greatest_cell) + abs(lowest_cell)` quantity of the resource
check, for a completed run. -/
def RunResult.extremaSum : RunResult → Option Int
  | .completed s => some (|s.greatest_cell| + |s.lowest_cell|)
  | _ => none

/-- Index of the next instruction to dispatch after a successful step. -/
def StepResult.nextIndex : StepResult → Option Nat
  | .ok s => some s.index
  | _ => none

/-- Operations counter after a successful step. -/
def StepResult.opsOf : StepResult → Option Nat
  | .ok s => some s.operations
  | _ => none

/-- Whether a step failed with an error. -/
def StepResult.isFail : StepResult → Bool
  | .fail _ => true
  | _ => false

/-! ### Concrete programs and states used by individual claims -/

/-- The multiply-and-print program of the scenario test. -/
def prog7 : List Char :=
  ['+','+','+','+','+','+','+','+','[','>','+','+','+','+','<','-',']','>','.']

/-- A program whose final instruction pushes the extrema sum past a limit
of 1: three right moves, then one left move (the left move records
`greatest_cell = 2`). -/
def progExcursion : List Char := ['>','>','>','<']

/-- State at the `]` of the program `[+]`: cell 0 holds 1, the loop stack
holds the index 0 of the `[`. -/
def c4State : EngineState :=
  { pointer := 0, tape := fun a => if a = 0 then 1 else 0, stack := [0],
    lowest_cell := 0, greatest_cell := 0, operations := 0, left_shifts := 0,
    right_shifts := 0, index := 2, inputs := [], output := [] }

/-- A fresh state whose `greatest_cell` tracker is already 2, about to
dispatch an instruction. -/
def c1State : EngineState :=
  { pointer := 0, tape := fun _ => 0, stack := [], lowest_cell := 0,
    greatest_cell := 2, operations := 0, left_shifts := 0, right_shifts := 0,
    index := 0, inputs := [], output := [] }

/-- Claim C2 (code bug): the span-extrema trackers do not record the most
extreme cursor excursions.  After the single instruction `<` the cursor
reached address `-1`, and after the single instruction `>` it reached
address `1`, yet in both runs `lowest_cell` and `greatest_cell` both remain
`0`: rightward movement updates `lowest_cell` with `min` and leftward
movement updates `greatest_cell` with `max`, so neither extremum records the
excursion. -/
theorem C2_extrema_swapped :
    (run ['<'] 256 5 (initState [])).finalPointer = some (-1) ∧
    (run ['<'] 256 5 (initState [])).finalLowest = some 0 ∧
    (run ['<'] 256 5 (initState [])).finalGreatest = some 0 ∧
    (run ['>'] 256 5 (initState [])).finalPointer = some 1 ∧
    (run ['>'] 256 5 (initState [])).finalLowest = some 0 ∧
    (run ['>'] 256 5 (initState [])).finalGreatest = some 0 := by
  decide

/-- Claim C3 (code bug): the program `]` on a fresh engine has a zero cell at
the cursor, so the interpreter takes the zero branch of `]` and calls
`pop_back()` on the empty loop-start vector — undefined behaviour, not the
`UnbalancedLoop` (`Syntax error`) failure the claim requires. -/
theorem C3_lone_close_bracket_ub :
    (run [']'] 256 5 (initState [])).isUB = true ∧
    (run [']'] 256 5 (initState [])).failure = none := by
  decide

/-- Claim C5 (code bug): the forward skip scan of the program `[` with a zero
cell reads position 1 (the null terminator, index = size) and then position 2,
beyond the end of the sequence — an out-of-bounds read, i.e. undefined
behaviour, rather than completing or failing `MalformedProgram`. -/
theorem C5_skip_scan_out_of_bounds :
    skipScan ['['] 3 0 1 = none ∧
    (run ['['] 256 5 (initState [])).isUB = true ∧
    (run ['['] 256 5 (initState [])).failure = none := by
  decide

/-- Claim C6 (code bug): `count_operators` scans for membership in the string
`"+-./<>[]"`, which omits the operator `,` and includes the non-operator `/`:
a lone `,` counts 0, a lone `/` counts 1, and the eight-operator string
`+-<>.,[]` counts only 7. -/
theorem C6_count_operators_wrong_set :
    count_operators [','] = 0 ∧
    count_operators ['/'] = 1 ∧
    count_operators ['+','-','<','>','.',',','[',']'] = 7 := by
  decide

set_option maxRecDepth 40000 in
/-- Claim C7: the program `++++++++[>++++<-]>.` with the default limit 256
halts `Completed`, leaves 32 = 8 × 4 in the cell at address 1, and emits the
single byte 32 (the printable space character). -/
theorem C7_multiply_and_print :
    (run prog7 256 100 (initState [])).isCompleted = true ∧
    (run prog7 256 100 (initState [])).cellAt 1 = some 32 ∧
    (run prog7 256 100 (initState [])).outputOf = some [32] := by
  decide

/-- Claim C1, counterexample: the program `>>><` with cell-span limit 1
completes even though its final instruction raises the extrema sum to 2 > 1 —
the resource bound is only checked before dispatching an instruction, so an
excursion on the final instruction never fails. -/
theorem C1_final_excursion_completes :
    (run progExcursion 1 10 (initState [])).isCompleted = true ∧
    (run progExcursion 1 10 (initState [])).extremaSum = some 2 ∧
    (1 : Int) < 2 := by
  decide

/-- Claim C4, counterexample: at the `]` of the program `[+]` with a non-zero
cell and stack `[0]`, the step sets the index to the stack top 0, but the
loop increment then advances it, so the next dispatched instruction is at
index 1 (the `+` after the `[`), not index 0 — the `[` is not re-evaluated. -/
theorem C4_jump_skips_open_bracket :
    (step ['[','+',']'] 256 c4State).nextIndex = some 1 ∧
    some 1 ≠ some (0 : Nat) := by
  decide

/-- Whether a step hit undefined behaviour. -/
def StepResult.isUb : StepResult → Bool
  | .ub => true
  | _ => false

/-- Claim C1, amended: whenever the extrema sum exceeds the limit and another
instruction is about to be dispatched, the run fails with
`ResourceLimitExceeded` at the pre-instruction check, before that
instruction's effect. -/
theorem C1_limit_check_fails_run (instrs : List Char) (limit : Int)
    (s : EngineState) (fuel : Nat)
    (hidx : s.index < instrs.length)
    (hsum : |s.greatest_cell| + |s.lowest_cell| > limit) :
    run instrs limit (fuel + 1) s = .failed .resourceLimitExceeded := by
  have hstep : step instrs limit s = .fail .resourceLimitExceeded := by
    simp only [step]
    rw [if_pos hsum]
  simp only [run, if_pos hidx, hstep]

/-- Closed instance of `C1_limit_check_fails_run` at a concrete state. -/
theorem C1_limit_check_fails_run_witness :
    c1State.index < ([ '+' ] : List Char).length ∧
    |c1State.greatest_cell| + |c1State.lowest_cell| > 1 ∧
    run ['+'] 1 1 c1State = .failed .resourceLimitExceeded :=
  ⟨by decide, by decide,
    C1_limit_check_fails_run ['+'] 1 c1State 0 (by decide) (by decide)⟩

/-- Claim C4, amended: a `]` dispatched with a non-zero cell and a non-empty
loop stack sets the index to the stack top without popping, and the loop
increment then advances it, so execution resumes at the instruction
immediately after the corresponding `[` (index top + 1); the `[` itself is
not re-dispatched. -/
theorem C4_repeat_jump_after_open (instrs : List Char) (limit : Int)
    (s : EngineState) (top : Nat) (rest : List Nat)
    (hc : instrs.getD s.index (Char.ofNat 0) = ']')
    (hnz : s.tape s.pointer ≠ 0)
    (hstk : s.stack = top :: rest)
    (hchk : |s.greatest_cell| + |s.lowest_cell| ≤ limit) :
    step instrs limit s =
      .ok { s with operations := s.operations + 1, index := top + 1 } := by
  simp only [step, hc]
  rw [if_neg (not_lt.mpr hchk)]
  simp [hnz, hstk]

/-- Closed instance of `C4_repeat_jump_after_open` at the `c4State`. -/
theorem C4_repeat_jump_after_open_witness :
    (['[','+',']'] : List Char).getD c4State.index (Char.ofNat 0) = ']' ∧
    c4State.tape c4State.pointer ≠ 0 ∧
    c4State.stack = 0 :: [] ∧
    |c4State.greatest_cell| + |c4State.lowest_cell| ≤ 256 ∧
    step ['[','+',']'] 256 c4State =
      .ok { c4State with operations := c4State.operations + 1, index := 0 + 1 } :=
  ⟨by decide, by decide, by decide, by decide,
    C4_repeat_jump_after_open ['[','+',']'] 256 c4State 0 []
      (by decide) (by decide) (by decide) (by decide)⟩

/-- Claim C9: a `[` dispatched with a zero cell at the cursor leaves the
loop-resolution stack exactly as it was, for every prior stack content. -/
theorem C9_zero_open_preserves_stack (instrs : List Char) (limit : Int)
    (s s' : EngineState)
    (hc : instrs.getD s.index (Char.ofNat 0) = '[')
    (h0 : s.tape s.pointer = 0)
    (hok : step instrs limit s = .ok s') :
    s'.stack = s.stack := by
  simp only [step, hc, h0, Char.reduceEq, reduceIte] at hok
  split at hok
  · exact StepResult.noConfusion hok
  · split at hok
    · cases hok
      rfl
    · exact StepResult.noConfusion hok

/-- Closed instance of `C9_zero_open_preserves_stack`. -/
theorem C9_zero_open_preserves_stack_witness :
    (['[','+',']'] : List Char).getD (initState []).index (Char.ofNat 0) = '[' ∧
    (initState []).tape (initState []).pointer = 0 ∧
    step ['[','+',']'] 256 (initState []) =
      .ok { initState [] with operations := 1, index := 3 } ∧
    ({ initState [] with operations := 1, index := 3 } : EngineState).stack =
      (initState []).stack :=
  ⟨by decide, by decide, rfl,
    C9_zero_open_preserves_stack ['[','+',']'] 256 (initState [])
      { initState [] with operations := 1, index := 3 }
      (by decide) (by decide) rfl⟩

/-- Claim C10: a `[` dispatched on a zero cell that passes the
pre-instruction resource check never fails regardless of the instructions it
scans over, and — when the scan stays in bounds — increments the operations
counter by exactly one, however many instructions were jumped over. -/
theorem C10_skipped_not_counted (instrs : List Char) (limit : Int)
    (s : EngineState)
    (hc : instrs.getD s.index (Char.ofNat 0) = '[')
    (h0 : s.tape s.pointer = 0)
    (hchk : |s.greatest_cell| + |s.lowest_cell| ≤ limit) :
    (step instrs limit s).isFail = false ∧
    ((step instrs limit s).isUb = true ∨
      (step instrs limit s).opsOf = some (s.operations + 1)) := by
  simp only [step, hc, h0, Char.reduceEq, reduceIte]
  rw [if_neg (not_lt.mpr hchk)]
  split
  · exact ⟨rfl, Or.inr rfl⟩
  · exact ⟨rfl, Or.inl rfl⟩

/-- Closed instance of `C10_skipped_not_counted`: the `[` of `[++]` skips
over three instructions yet counts one operation even under limit 0. -/
theorem C10_skipped_not_counted_witness :
    (['[','+','+',']'] : List Char).getD (initState []).index (Char.ofNat 0) = '[' ∧
    (initState []).tape (initState []).pointer = 0 ∧
    |(initState []).greatest_cell| + |(initState []).lowest_cell| ≤ 0 ∧
    ((step ['[','+','+',']'] 0 (initState [])).isFail = false ∧
      ((step ['[','+','+',']'] 0 (initState [])).isUb = true ∨
        (step ['[','+','+',']'] 0 (initState [])).opsOf =
          some ((initState []).operations + 1))) :=
  ⟨by decide, by decide, by decide,
    C10_skipped_not_counted ['[','+','+',']'] 0 (initState [])
      (by decide) (by decide) (by decide)⟩

/-! ### Wrap-around arithmetic of `+`/`-` programs -/

/-- Byte wrapping absorbs an already-wrapped left summand. -/
theorem wrap8_wrap8_add (a b : Int) : wrap8 (wrap8 a + b) = wrap8 (a + b) := by
  unfold wrap8
  omega

/-- Byte wrapping is idempotent. -/
theorem wrap8_idem (a : Int) : wrap8 (wrap8 a) = wrap8 a := by
  unfold wrap8
  omega

/-- Reading back the address just written. -/
theorem updateTape_same (t : Int → Int) (a v : Int) : updateTape t a v a = v := by
  simp [updateTape]

/-- A program of only `+` and `-` runs to completion without moving the
cursor, and the cell under the cursor accumulates the wrapped net count of
the remaining instructions. -/
theorem run_pm_aux (p : List Char) (limit : Int) (hlim : 0 ≤ limit)
    (hp : p.all (fun c => c = '+' || c = '-') = true) :
    ∀ n fuel s, n ≤ fuel → s.index + n = p.length →
      s.greatest_cell = 0 → s.lowest_cell = 0 →
      wrap8 (s.tape s.pointer) = s.tape s.pointer →
      ∃ s', run p limit (fuel + 1) s = .completed s' ∧
        s'.pointer = s.pointer ∧
        s'.tape s.pointer = wrap8 (s.tape s.pointer + netCount (p.drop s.index)) := by
  intro n
  induction n with
  | zero =>
    intro fuel s hnf hlen hg hl hw
    have hend : ¬ s.index < p.length := by omega
    refine ⟨s, ?_, rfl, ?_⟩
    · simp only [run, if_neg hend]
    · rw [List.drop_eq_nil_of_le (by omega)]
      have hz : netCount ([] : List Char) = 0 := by simp [netCount]
      rw [hz, add_zero]
      exact hw.symm
  | succ n ih =>
    intro fuel s hnf hlen hg hl hw
    have hidx : s.index < p.length := by omega
    obtain ⟨fuel', rfl⟩ : ∃ f, fuel = f + 1 := ⟨fuel - 1, by omega⟩
    have hget : p.getD s.index (Char.ofNat 0) = p[s.index] := by
      simp [List.getD_eq_getElem?_getD, List.getElem?_eq_getElem hidx]
    have hmem : p[s.index] ∈ p := List.getElem_mem hidx
    have hpm : p[s.index] = '+' ∨ p[s.index] = '-' := by
      have h2 := List.all_eq_true.mp hp _ hmem
      simpa using h2
    have hdrop : p.drop s.index = p[s.index] :: p.drop (s.index + 1) :=
      List.drop_eq_getElem_cons hidx
    have hnotgt : ¬ |s.greatest_cell| + |s.lowest_cell| > limit := by
      rw [hg, hl]
      simpa using hlim
    rcases hpm with hch | hch
    · have hstep : step p limit s = .ok { s with
          tape := updateTape s.tape s.pointer (wrap8 (s.tape s.pointer + 1)),
          operations := s.operations + 1, index := s.index + 1 } := by
        simp only [step, hget, hch, Char.reduceEq, reduceIte]
        rw [if_neg hnotgt]
      obtain ⟨s', h1, h2, h3⟩ := ih (fuel') { s with
          tape := updateTape s.tape s.pointer (wrap8 (s.tape s.pointer + 1)),
          operations := s.operations + 1, index := s.index + 1 }
        (by omega) (by dsimp only; omega) hg hl
        (by dsimp only; rw [updateTape_same]; exact wrap8_idem _)
      dsimp only at h2 h3
      refine ⟨s', ?_, h2, ?_⟩
      · simp only [run, if_pos hidx, hstep]
        exact h1
      · rw [updateTape_same] at h3
        rw [h3, wrap8_wrap8_add, hdrop, hch]
        have hnet : netCount ('+' :: p.drop (s.index + 1)) =
            netCount (p.drop (s.index + 1)) + 1 := by
          simp [netCount, List.count_cons]
          omega
        rw [hnet]
        congr 1
        omega
    · have hstep : step p limit s = .ok { s with
          tape := updateTape s.tape s.pointer (wrap8 (s.tape s.pointer - 1)),
          operations := s.operations + 1, index := s.index + 1 } := by
        simp only [step, hget, hch, Char.reduceEq, reduceIte]
        rw [if_neg hnotgt]
      obtain ⟨s', h1, h2, h3⟩ := ih (fuel') { s with
          tape := updateTape s.tape s.pointer (wrap8 (s.tape s.pointer - 1)),
          operations := s.operations + 1, index := s.index + 1 }
        (by omega) (by dsimp only; omega) hg hl
        (by dsimp only; rw [updateTape_same]; exact wrap8_idem _)
      dsimp only at h2 h3
      refine ⟨s', ?_, h2, ?_⟩
      · simp only [run, if_pos hidx, hstep]
        exact h1
      · rw [updateTape_same] at h3
        rw [h3, wrap8_wrap8_add, hdrop, hch]
        have hnet : netCount ('-' :: p.drop (s.index + 1)) =
            netCount (p.drop (s.index + 1)) - 1 := by
          simp [netCount, List.count_cons]
          omega
        rw [hnet]
        congr 1
        omega

/-- Claim C8: every program of only `+` and `-` completes (under any
non-negative cell-span limit) with the cell at address 0 equal to the net
count of increments minus decrements, wrapped modulo the one-byte cell
width. -/
theorem C8_cell_wraparound (p : List Char) (limit : Int)
    (hp : p.all (fun c => c = '+' || c = '-') = true)
    (hlim : 0 ≤ limit) :
    (run p limit (p.length + 1) (initState [])).isCompleted = true ∧
    (run p limit (p.length + 1) (initState [])).cellAt 0 =
      some (wrap8 (netCount p)) := by
  obtain ⟨s', h1, h2, h3⟩ := run_pm_aux p limit hlim hp p.length p.length
    (initState []) le_rfl (by dsimp only [initState]; omega) rfl rfl (by decide)
  rw [h1]
  dsimp only [initState] at h3
  rw [List.drop_zero, zero_add] at h3
  constructor
  · rfl
  · simp only [RunResult.cellAt]
    rw [h3]

/-- Closed instance of `C8_cell_wraparound` on the program `+++-`. -/
theorem C8_cell_wraparound_witness :
    ((['+','+','+','-'] : List Char).all (fun c => c = '+' || c = '-') = true) ∧
    ((0 : Int) ≤ 256) ∧
    ((run ['+','+','+','-'] 256 ((['+','+','+','-'] : List Char).length + 1)
        (initState [])).isCompleted = true ∧
      (run ['+','+','+','-'] 256 ((['+','+','+','-'] : List Char).length + 1)
        (initState [])).cellAt 0 = some (wrap8 (netCount ['+','+','+','-']))) :=
  ⟨by decide, by decide,
    C8_cell_wraparound ['+','+','+','-'] 256 (by decide) (by decide)⟩
